import Mathlib

/-!
Shallow embedding of the notes-generation core of the repository
(`backend/services/notes_generator.py`, with the data model from
`backend/models/quiz.py` and `backend/models/notes.py`), together with
proofs about the frozen claims.

Modelling conventions:
* Python `str` is Lean `String`; `str.lower()` is modelled per-character
  (ASCII, as all relevant literals are ASCII), `str.strip()` is `String.trim`.
* Python `float` scores/percentages are modelled as `ℚ`; all numeric
  literals involved (`0.5`, `0.6`, `90`, ...) are exactly representable
  in binary floating point, so ordering comparisons agree with `ℚ`.
* Python dicts keyed by strings are modelled as association lists that
  preserve first-insertion key order, the observable behaviour of
  Python 3.7+ dicts.
* A raised-and-caught exception from an external call is modelled by the
  call returning `none`.
-/

namespace NotesGen

/-- `models/quiz.py`: the fields of `Question` used by the notes generator.
`difficulty` is a Python `int` (1–5 scale). -/
structure Question where
  id : String
  question_text : String
  question_type : String
  correct_answer : String
  explanation : Option String
  difficulty : Int
  deriving DecidableEq

/-- `models/quiz.py`: the fields of `QuizAttempt` used by the notes
generator.  `answers` is the `question_id -> answer` dict, modelled as an
association list with first-occurrence lookup (dict keys are unique). -/
structure QuizAttempt where
  id : String
  quiz_id : String
  user_id : String
  answers : List (String × String)
  deriving DecidableEq

/-- `models/pdf.py`: the fields of `PDFDocument` used by the notes
generator. -/
structure PDFDocument where
  id : String
  original_filename : String
  deriving DecidableEq

/-- The maximal runs of characters satisfying `keep`; `acc` holds the
current run reversed.  (Structural recursion on the character list, so
the kernel can evaluate it — Lean's own `String.split`/`trim` are
well-founded recursions it cannot.) -/
def runsAux (keep : Char → Bool) : List Char → List Char → List (List Char)
  | [], acc => if acc.isEmpty then [] else [acc.reverse]
  | c :: rest, acc =>
    if keep c then runsAux keep rest (c :: acc)
    else if acc.isEmpty then runsAux keep rest []
    else acc.reverse :: runsAux keep rest []

/-- Python `str.lower()` (ASCII, as all inputs of interest are ASCII). -/
def pyLower (s : String) : String := String.mk (s.toList.map Char.toLower)

/-- Python `str.strip()`: drop leading and trailing whitespace. -/
def pyStrip (s : String) : String :=
  String.mk (((s.toList.dropWhile Char.isWhitespace).reverse.dropWhile
    Char.isWhitespace).reverse)

/-- Python `str.split()` with no separator: the maximal non-whitespace
runs, i.e. split on whitespace discarding empty pieces. -/
def pySplit (s : String) : List String :=
  (runsAux (fun c => !c.isWhitespace) s.toList []).map (fun cs => String.mk cs)

/-- Keep the first occurrence of every element not yet in `seen`, in
order of first appearance. -/
def firstSeenAux {α : Type} [DecidableEq α] (seen : List α) : List α → List α
  | [] => []
  | a :: l => if a ∈ seen then firstSeenAux seen l else a :: firstSeenAux (a :: seen) l

/-- Keep the first occurrence of every element, in order of first
appearance.  This is the key order of a Python dict built by repeated
insertion. -/
def firstSeen {α : Type} [DecidableEq α] (l : List α) : List α :=
  firstSeenAux [] l

theorem mem_firstSeenAux {α : Type} [DecidableEq α] (x : α) :
    ∀ (l seen : List α), x ∈ firstSeenAux seen l ↔ (x ∈ l ∧ x ∉ seen)
  | [], seen => by simp [firstSeenAux]
  | a :: l, seen => by
    by_cases ha : a ∈ seen
    · rw [firstSeenAux, if_pos ha, mem_firstSeenAux x l seen]
      constructor
      · exact fun ⟨hl, hs⟩ => ⟨List.mem_cons_of_mem a hl, hs⟩
      · rintro ⟨hx, hs⟩
        rcases List.mem_cons.mp hx with rfl | hx
        · exact absurd ha hs
        · exact ⟨hx, hs⟩
    · rw [firstSeenAux, if_neg ha]
      by_cases hx : x = a
      · subst hx
        simp [ha]
      · simp only [List.mem_cons, hx, false_or]
        rw [mem_firstSeenAux x l (a :: seen)]
        simp [hx]

theorem mem_firstSeen {α : Type} [DecidableEq α] (x : α) (l : List α) :
    x ∈ firstSeen l ↔ x ∈ l := by
  rw [firstSeen, mem_firstSeenAux]
  simp

theorem nodup_firstSeenAux {α : Type} [DecidableEq α] :
    ∀ (l seen : List α), (firstSeenAux seen l).Nodup
  | [], seen => by simp [firstSeenAux]
  | a :: l, seen => by
    by_cases ha : a ∈ seen
    · rw [firstSeenAux, if_pos ha]
      exact nodup_firstSeenAux l seen
    · rw [firstSeenAux, if_neg ha]
      refine List.nodup_cons.mpr ⟨?_, nodup_firstSeenAux l (a :: seen)⟩
      rw [mem_firstSeenAux]
      simp

theorem nodup_firstSeen {α : Type} [DecidableEq α] (l : List α) :
    (firstSeen l).Nodup :=
  nodup_firstSeenAux l []

/-! ## Answer evaluation (`_evaluate_answer_quality`, lines 71–82) -/

/-- `_evaluate_answer_quality`: exact case-insensitive trimmed match for
multiple-choice and true/false; for everything else (short answer),
distinct-word overlap with the canonical answer of at least half the
canonical answer's word count.  `len(set(a) & set(b))` is the number of
distinct words of `a` that also occur in `b`. -/
def evaluate_answer_quality (q : Question) (user_answer : String) : Bool :=
  if q.question_type = "multiple_choice" then
    decide (pyStrip (pyLower user_answer) = pyStrip (pyLower q.correct_answer))
  else if q.question_type = "true_false" then
    decide (pyStrip (pyLower user_answer) = pyStrip (pyLower q.correct_answer))
  else
    let correct_keywords := pySplit (pyLower q.correct_answer)
    let user_keywords := pySplit (pyLower user_answer)
    let overlap := ((firstSeen correct_keywords).filter
      (fun w => w ∈ user_keywords)).length
    -- `overlap >= len(correct_keywords) * 0.5`, restated over ℕ by
    -- doubling both sides; exact, since `0.5` is a power of two and the
    -- operands are small integers (see `half_le_iff`).
    decide (correct_keywords.length ≤ 2 * overlap)

/-! ## Topic extraction (`_extract_topic_keywords`, lines 84–115) -/

/-- The fixed stop-word set of `_extract_topic_keywords`. -/
def question_words : List String :=
  ["what", "how", "why", "when", "where", "which", "who", "is", "are",
   "the", "a", "an", "does", "do", "can", "will", "would", "should",
   "could", "might", "may", "must", "this", "that", "these", "those",
   "and", "or", "but", "for", "with", "from", "to"]

/-- A regex word character (`\w`), restricted to ASCII as all inputs of
interest are ASCII. -/
def isWordChar (c : Char) : Bool := c.isAlphanum || c = '_'

/-- `re.findall(r'\b\w+\b', text.lower())`: the maximal word-character
runs of the lowercased text. -/
def findWords (s : String) : List String :=
  (runsAux isWordChar (s.toList.map Char.toLower) []).map (fun cs => String.mk cs)

/-- A token survives the filter of `_extract_topic_keywords`:
length strictly greater than 3 and not a stop word. -/
def keeps (w : String) : Bool :=
  decide (3 < w.length) && decide (w ∉ question_words)

/-- The bigram loop of `_extract_topic_keywords` (lines 105–110):
adjacent token pairs in the original token stream where both tokens
survive, joined by an underscore. -/
def word_pairs : List String → List String
  | a :: b :: rest =>
    (if keeps a && keeps b then [a ++ "_" ++ b] else []) ++ word_pairs (b :: rest)
  | _ => []

/-- `_extract_topic_keywords`: surviving unigrams, adjacent surviving
bigrams, bigrams first, truncated to 8. -/
def extract_topic_keywords (question_text : String) : List String :=
  let words := findWords question_text
  let keywords := words.filter keeps
  (word_pairs words ++ keywords).take 8

/-- Modelled from the spec's wording of §4.1 (for comparison with
`extract_topic_keywords`): tokenize and lowercase, discard stop words and
tokens of length ≤ 3, form underscore-joined bigrams of two consecutive
surviving tokens, return bigrams then unigrams truncated to 8. -/
def extract_topics_spec (question_text : String) : List String :=
  let toks := findWords question_text
  let surviving := toks.filter keeps
  let bigrams := ((toks.zip toks.tail).filter
      (fun p => keeps p.1 && keeps p.2)).map (fun p => p.1 ++ "_" ++ p.2)
  (bigrams ++ surviving).take 8

/-! ## Performance analysis (`analyze_quiz_performance`, lines 14–69) -/

/-- The per-question `performance_data` dict built at lines 33–42. -/
structure PerfRecord where
  question_id : String
  question_text : String
  topic_keywords : List String
  user_answer : String
  correct_answer : String
  is_correct : Bool
  difficulty : Int
  explanation : Option String
  deriving DecidableEq

/-- `quiz_attempt.answers.get(question_id, "")`. -/
def answerFor (att : QuizAttempt) (qid : String) : String :=
  (att.answers.lookup qid).getD ""

/-- Build one `performance_data` record (lines 24–42). -/
def perfRecord (att : QuizAttempt) (q : Question) : PerfRecord :=
  let ua := answerFor att q.id
  { question_id := q.id
    question_text := q.question_text
    topic_keywords := extract_topic_keywords q.question_text
    user_answer := ua
    correct_answer := q.correct_answer
    is_correct := evaluate_answer_quality q ua
    difficulty := q.difficulty
    explanation := q.explanation }

/-- Ordering relation used to model Python's stable
`sorted(items, key=count, reverse=True)` over dict items carrying their
first-insertion index: larger count first, ties by smaller index.  On
items with pairwise-distinct indices this order is total and
antisymmetric, so its sorted permutation is unique and coincides with
the stable sort. -/
def wtRel (a b : Nat × String × Nat) : Prop :=
  b.2.2 < a.2.2 ∨ (a.2.2 = b.2.2 ∧ a.1 ≤ b.1)

instance : DecidableRel wtRel := fun a b => by
  unfold wtRel; infer_instance

instance : IsTotal (Nat × String × Nat) wtRel where
  total a b := by
    rcases Nat.lt_trichotomy a.2.2 b.2.2 with h | h | h
    · exact Or.inr (Or.inl h)
    · rcases Nat.le_total a.1 b.1 with h' | h'
      · exact Or.inl (Or.inr ⟨h, h'⟩)
      · exact Or.inr (Or.inr ⟨h.symm, h'⟩)
    · exact Or.inl (Or.inl h)

instance : IsTrans (Nat × String × Nat) wtRel where
  trans a b c hab hbc := by
    rcases hab with h1 | ⟨h1, h1'⟩ <;> rcases hbc with h2 | ⟨h2, h2'⟩
    · exact Or.inl (h2.trans h1)
    · exact Or.inl (h2 ▸ h1)
    · exact Or.inl (h1 ▸ h2)
    · exact Or.inr ⟨h1.trans h2, h1'.trans h2'⟩

/-- `_identify_weak_topics` (lines 117–127): frequency-count every topic
keyword across the given records, stable-sort the `(keyword, count)`
dict items by count descending, keep the first 10 keywords.  The
first-insertion index is attached to encode stability. -/
def identify_weak_topics (weak_questions : List PerfRecord) : List String :=
  let allKws := weak_questions.flatMap (fun r => r.topic_keywords)
  let keys := firstSeen allKws
  let pairs := keys.map (fun kw => (keys.indexOf kw, kw, allKws.count kw))
  ((pairs.insertionSort wtRel).map (fun t => t.2.1)).take 10

/-- `_determine_performance_level` (lines 129–140). -/
def determine_performance_level (score_percentage : ℚ) : String :=
  if 90 ≤ score_percentage then "excellent"
  else if 80 ≤ score_percentage then "good"
  else if 70 ≤ score_percentage then "satisfactory"
  else if 60 ≤ score_percentage then "needs_improvement"
  else "requires_significant_study"

/-- The dict returned by `analyze_quiz_performance` (lines 60–69). -/
structure PerformanceAnalysis where
  total_questions : Nat
  correct_answers : Nat
  score_percentage : ℚ
  weak_areas : List PerfRecord
  needs_review : List PerfRecord
  strong_areas : List PerfRecord
  weak_topics : List String
  performance_level : String
  deriving DecidableEq

/-- `analyze_quiz_performance` (lines 14–69).  The classification loop
appends each record to exactly one of three lists, which is the
order-preserving `filter` of the record list. -/
def analyze_quiz_performance (att : QuizAttempt) (questions : List Question) :
    PerformanceAnalysis :=
  let records := questions.map (perfRecord att)
  let weak_areas := records.filter (fun r => !r.is_correct && decide (3 ≤ r.difficulty))
  let needs_review := records.filter (fun r => !r.is_correct && decide (r.difficulty < 3))
  let strong_areas := records.filter (fun r => r.is_correct)
  let total_questions := questions.length
  let correct_answers := strong_areas.length
  let score_percentage : ℚ :=
    if 0 < total_questions then (correct_answers : ℚ) / (total_questions : ℚ) * 100 else 0
  { total_questions := total_questions
    correct_answers := correct_answers
    score_percentage := score_percentage
    weak_areas := weak_areas
    needs_review := needs_review
    strong_areas := strong_areas
    weak_topics := identify_weak_topics (weak_areas ++ needs_review)
    performance_level := determine_performance_level score_percentage }

/-! ## Content aggregation (`find_relevant_content`, lines 142–215) -/

/-- One result of `EmbeddingService.similarity_search`. -/
structure SearchResult where
  text : String
  score : ℚ
  chunk_index : Int
  deriving DecidableEq

/-- The retrieval capability: `(query, pdf_id, top_k)`.  `none` models a
raised exception (which the caller catches); `some []` models an empty
result set. -/
abbrev Retriever := String → String → Nat → Option (List SearchResult)

/-- One element of `relevant_content` (lines 171–178 / 195–202). -/
structure ContentItem where
  topic : String
  query : String
  content : String
  relevance_score : ℚ
  chunk_index : Int
  source : String
  deriving DecidableEq

/-- The eight query templates of lines 149–158. -/
def search_queries (topic : String) : List String :=
  ["What is " ++ topic ++ "? Definition and explanation",
   "Explain " ++ topic ++ " in detail with examples",
   "How does " ++ topic ++ " work? Process and mechanism",
   topic ++ " definition examples applications",
   "Key concepts related to " ++ topic,
   "Important aspects of " ++ topic,
   "Understanding " ++ topic ++ " fundamentals",
   topic ++ " principles and theory"]

/-- Lines 171–178: wrap a search result for a topic query. -/
def itemOfResult (topic q : String) (r : SearchResult) : ContentItem :=
  { topic := topic
    query := q
    content := r.text
    relevance_score := r.score
    chunk_index := r.chunk_index
    source := "pdf_content" }

/-- The per-topic, per-query fan-out loop (lines 147–181): top-5 search
per query, keep scores strictly above 0.6, skip failed calls. -/
def fanout_items (retr : Retriever) (weak_topics : List String) (pdf_id : String) :
    List ContentItem :=
  weak_topics.flatMap fun topic =>
    (search_queries topic).flatMap fun q =>
      match retr q pdf_id 5 with
      | none => []
      | some results =>
        (results.filter (fun r => decide ((0.6 : ℚ) < r.score))).map (itemOfResult topic q)

/-- The generic query of line 189. -/
def general_query : String := "main concepts key information important topics"

/-- The fallback block (lines 184–204): one top-10 generic search, all
results tagged with the sentinel topic and no score filter; a failure is
caught and yields nothing. -/
def fallback_items (retr : Retriever) (pdf_id : String) : List ContentItem :=
  match retr general_query pdf_id 10 with
  | none => []
  | some results =>
    results.map fun r =>
      { topic := "general_content"
        query := "general_search"
        content := r.text
        relevance_score := r.score
        chunk_index := r.chunk_index
        source := "pdf_content" }

/-- `relevant_content` after line 204: the fan-out items, or the fallback
items when the fan-out produced nothing. -/
def retrieved_items (retr : Retriever) (weak_topics : List String) (pdf_id : String) :
    List ContentItem :=
  let items := fanout_items retr weak_topics pdf_id
  if items.isEmpty then fallback_items retr pdf_id else items

/-- The retrieval calls `find_relevant_content` issues, in order: one
per (topic, query-template) pair with `top_k = 5` — every call is made
even when an earlier one fails, since exceptions are caught per call —
then the single generic call with `top_k = 10` exactly when the fan-out
accumulated nothing. -/
def retrieval_calls (retr : Retriever) (weak_topics : List String) (pdf_id : String) :
    List (String × String × Nat) :=
  (weak_topics.flatMap fun topic =>
    (search_queries topic).map fun q => (q, pdf_id, 5)) ++
  (if (fanout_items retr weak_topics pdf_id).isEmpty
   then [(general_query, pdf_id, 10)] else [])

/-- The dedup key of line 209, the literal Python string
`f"{topic}_{chunk_index}"`. -/
def itemKey (item : ContentItem) : String :=
  item.topic ++ "_" ++ toString item.chunk_index

/-- One step of the dedup loop (lines 208–211): a dict insert that keeps
the existing key slot and replaces the value only when the new score is
strictly greater; an unseen key is appended. -/
def updateUnique : List (String × ContentItem) → ContentItem → List (String × ContentItem)
  | [], item => [(itemKey item, item)]
  | q :: rest, item =>
    if itemKey item = q.1 then
      if q.2.relevance_score < item.relevance_score then (q.1, item) :: rest
      else q :: rest
    else q :: updateUnique rest item

/-- The `unique_content` dict of lines 207–211, as an insertion-ordered
association list. -/
def unique_content (items : List ContentItem) : List (String × ContentItem) :=
  items.foldl updateUnique []

/-- Descending relevance order; `insertionSort` with this relation is
stable, matching Python's stable `sorted(..., reverse=True)`. -/
def scoreRel (a b : ContentItem) : Prop :=
  b.relevance_score ≤ a.relevance_score

instance : DecidableRel scoreRel := fun a b => by
  unfold scoreRel; infer_instance

instance : IsTotal ContentItem scoreRel where
  total a b := le_total b.relevance_score a.relevance_score

instance : IsTrans ContentItem scoreRel where
  trans _ _ _ hab hbc := le_trans hbc hab

/-- `find_relevant_content` (lines 142–215): fan-out (with fallback),
dedup keeping the higher-scoring duplicate, sort by relevance
descending, truncate to `max_chunks` (default 15). -/
def find_relevant_content (retr : Retriever) (weak_topics : List String)
    (pdf_id : String) (max_chunks : Nat) : List ContentItem :=
  let items := retrieved_items retr weak_topics pdf_id
  (((unique_content items).map Prod.snd).insertionSort scoreRel).take max_chunks

/-! ## Study planner (`_determine_study_priority`, `_estimate_study_time`,
`_suggest_review_date`, lines 514–553) -/

/-- `_determine_study_priority` (lines 514–523); the dict lookup has
default `"medium"`. -/
def determine_study_priority (performance_level : String) : String :=
  if performance_level = "excellent" then "low"
  else if performance_level = "good" then "low"
  else if performance_level = "satisfactory" then "medium"
  else if performance_level = "needs_improvement" then "high"
  else if performance_level = "requires_significant_study" then "urgent"
  else "medium"

/-- `_estimate_study_time` (lines 525–539).  The source also computes
`weak_areas_count` but never uses it. -/
def estimate_study_time (analysis : PerformanceAnalysis) : String :=
  let score := analysis.score_percentage
  if 90 ≤ score then "15-30 minutes review"
  else if 80 ≤ score then "30-45 minutes focused study"
  else if 70 ≤ score then "1-2 hours comprehensive review"
  else if 60 ≤ score then "2-3 hours intensive study"
  else "3+ hours deep learning required"

/-- `_suggest_review_date` (lines 541–553), modelled as the day offset
added to `datetime.now()`; the `strftime` date rendering is not
modelled.  The dict lookup has default 3. -/
def suggest_review_days (performance_level : String) : Nat :=
  if performance_level = "excellent" then 7
  else if performance_level = "good" then 5
  else if performance_level = "satisfactory" then 3
  else if performance_level = "needs_improvement" then 2
  else if performance_level = "requires_significant_study" then 1
  else 3

/-! ## Notes synthesis (`generate_personalized_notes`, lines 217–372, and
`_create_fallback_notes`, lines 374–512) -/

/-- `list(content_by_topic.keys())`: the topic keys of the grouped
content in first-insertion order.  Both the AI path (line 360) and the
fallback path (line 509) compute exactly this. -/
def content_by_topic_keys (relevant_content : List ContentItem) : List String :=
  firstSeen (relevant_content.map ContentItem.topic)

/-- The data fields of the notes dict.  An `Option` field models a dict
key that one of the two paths may omit (`none` = key absent).  The
`study_notes` body string (AI text vs. the fixed fallback template) is
not modelled: no claim concerns its content, only the data shape. -/
structure NotesData where
  id : String
  pdf_id : String
  pdf_title : String
  generated_at : Nat
  ps_score : ℚ
  ps_level : Option String
  ps_weak_topics : List String
  ps_total_questions : Nat
  ps_correct_answers : Option Nat
  relevant_content_sources : Nat
  topics_covered : List String
  study_priority : String
  estimated_study_time : String
  next_review_days : Option Nat
  deriving DecidableEq

/-- The `notes_data` dict of the successful AI path (lines 346–364).
`now` is the timestamp used for the id and `generated_at`. -/
def notes_data_success (analysis : PerformanceAnalysis)
    (relevant_content : List ContentItem) (pdf : PDFDocument) (now : Nat) : NotesData :=
  { id := "notes_" ++ pdf.id ++ "_" ++ toString now
    pdf_id := pdf.id
    pdf_title := pdf.original_filename
    generated_at := now
    ps_score := analysis.score_percentage
    ps_level := some analysis.performance_level
    ps_weak_topics := analysis.weak_topics
    ps_total_questions := analysis.total_questions
    ps_correct_answers := some analysis.correct_answers
    relevant_content_sources := relevant_content.length
    topics_covered := content_by_topic_keys relevant_content
    study_priority := determine_study_priority analysis.performance_level
    estimated_study_time := estimate_study_time analysis
    next_review_days := some (suggest_review_days analysis.performance_level) }

/-- The dict returned by `_create_fallback_notes` (lines 497–512).  Its
`performance_summary` has no `level` and no `correct_answers` key, and
the top level has no `next_review_date` key. -/
def create_fallback_notes (analysis : PerformanceAnalysis)
    (relevant_content : List ContentItem) (pdf : PDFDocument) (now : Nat) : NotesData :=
  { id := "notes_" ++ pdf.id ++ "_" ++ toString now
    pdf_id := pdf.id
    pdf_title := pdf.original_filename
    generated_at := now
    ps_score := analysis.score_percentage
    ps_level := none
    ps_weak_topics := analysis.weak_topics
    ps_total_questions := analysis.total_questions
    ps_correct_answers := none
    relevant_content_sources := relevant_content.length
    topics_covered := content_by_topic_keys relevant_content
    study_priority := determine_study_priority analysis.performance_level
    estimated_study_time := estimate_study_time analysis
    next_review_days := none }

/-- `generate_personalized_notes` (lines 217–372): on a successful
generation call the AI-path dict, on any exception the fallback dict.
`gemini_ok` models whether `model.generate_content` succeeded. -/
def generate_personalized_notes (gemini_ok : Bool) (analysis : PerformanceAnalysis)
    (relevant_content : List ContentItem) (pdf : PDFDocument) (now : Nat) : NotesData :=
  if gemini_ok then notes_data_success analysis relevant_content pdf now
  else create_fallback_notes analysis relevant_content pdf now

/-! ## Theorems -/

/-- Splitting a list by three mutually exclusive, jointly exhaustive
Boolean predicates is a permutation of the list. -/
theorem filter_three_perm {α : Type} (p₁ p₂ p₃ : α → Bool)
    (h : ∀ x, (p₁ x = true ∧ p₂ x = false ∧ p₃ x = false) ∨
      (p₁ x = false ∧ p₂ x = true ∧ p₃ x = false) ∨
      (p₁ x = false ∧ p₂ x = false ∧ p₃ x = true)) :
    ∀ l : List α, (l.filter p₁ ++ l.filter p₂ ++ l.filter p₃).Perm l
  | [] => by simp
  | a :: l => by
    have ih := filter_three_perm p₁ p₂ p₃ h l
    have ih' : (l.filter p₁ ++ (l.filter p₂ ++ l.filter p₃)).Perm l := by
      rw [← List.append_assoc]; exact ih
    rcases h a with ⟨h1, h2, h3⟩ | ⟨h1, h2, h3⟩ | ⟨h1, h2, h3⟩
    · simpa [List.filter_cons, h1, h2, h3] using ih.cons a
    · simp only [List.filter_cons, h1, h2, h3, if_true, if_false, Bool.false_eq_true]
      have e1 : l.filter p₁ ++ (a :: l.filter p₂) ++ l.filter p₃ =
          l.filter p₁ ++ a :: (l.filter p₂ ++ l.filter p₃) := by simp
      rw [e1]
      exact List.perm_middle.trans (ih'.cons a)
    · simp only [List.filter_cons, h1, h2, h3, if_true, if_false, Bool.false_eq_true]
      have e1 : l.filter p₁ ++ l.filter p₂ ++ (a :: l.filter p₃) =
          (l.filter p₁ ++ l.filter p₂) ++ a :: l.filter p₃ := by simp
      rw [e1]
      exact List.perm_middle.trans (ih.cons a)

/-- C1: for every quiz attempt and ordered question list, the weak,
needs-review and strong partitions of `analyze_quiz_performance` are
exhaustive and pairwise disjoint over the questions — their
concatenation is a permutation of the per-question records, and the
membership conditions (wrong with difficulty ≥ 3, wrong with
difficulty < 3, correct) are mutually exclusive. -/
theorem claim_C1_partitions (att : QuizAttempt) (qs : List Question) :
    ((analyze_quiz_performance att qs).weak_areas ++
      (analyze_quiz_performance att qs).needs_review ++
      (analyze_quiz_performance att qs).strong_areas).Perm
        (qs.map (perfRecord att)) ∧
    (∀ r ∈ (analyze_quiz_performance att qs).weak_areas,
      r.is_correct = false ∧ 3 ≤ r.difficulty) ∧
    (∀ r ∈ (analyze_quiz_performance att qs).needs_review,
      r.is_correct = false ∧ r.difficulty < 3) ∧
    (∀ r ∈ (analyze_quiz_performance att qs).strong_areas, r.is_correct = true) := by
  have hcases : ∀ r : PerfRecord,
      ((!r.is_correct && decide (3 ≤ r.difficulty)) = true ∧
        (!r.is_correct && decide (r.difficulty < 3)) = false ∧ r.is_correct = false) ∨
      ((!r.is_correct && decide (3 ≤ r.difficulty)) = false ∧
        (!r.is_correct && decide (r.difficulty < 3)) = true ∧ r.is_correct = false) ∨
      ((!r.is_correct && decide (3 ≤ r.difficulty)) = false ∧
        (!r.is_correct && decide (r.difficulty < 3)) = false ∧ r.is_correct = true) := by
    intro r
    cases hc : r.is_correct
    · by_cases hd : 3 ≤ r.difficulty
      · refine Or.inl ⟨by simp [hc, hd], by simp [hc]; omega, rfl⟩
      · refine Or.inr (Or.inl ⟨by simp [hc, hd], by simp [hc]; omega, rfl⟩)
    · exact Or.inr (Or.inr ⟨by simp [hc], by simp [hc], rfl⟩)
  refine ⟨?_, ?_, ?_, ?_⟩
  · simpa [analyze_quiz_performance] using
      filter_three_perm _ _ _ hcases (qs.map (perfRecord att))
  · intro r hr
    simp only [analyze_quiz_performance, List.mem_filter] at hr
    have h2 := hr.2
    simp only [Bool.and_eq_true, Bool.not_eq_eq_eq_not, Bool.not_true,
      decide_eq_true_eq] at h2
    exact h2
  · intro r hr
    simp only [analyze_quiz_performance, List.mem_filter] at hr
    have h2 := hr.2
    simp only [Bool.and_eq_true, Bool.not_eq_eq_eq_not, Bool.not_true,
      decide_eq_true_eq] at h2
    exact h2
  · intro r hr
    simp only [analyze_quiz_performance, List.mem_filter] at hr
    exact hr.2

/-- The overlap count computed by `_evaluate_answer_quality` — distinct
elements of `l` that also occur in `l'` — is the cardinality of the
intersection of the two element sets, i.e. `len(set(l) & set(l'))`. -/
theorem overlap_eq_inter_card (l l' : List String) :
    ((firstSeen l).filter (fun w => w ∈ l')).length =
      (l.toFinset ∩ l'.toFinset).card := by
  have hnd : ((firstSeen l).filter (fun w => decide (w ∈ l'))).Nodup :=
    (nodup_firstSeen l).filter _
  have hcard := List.toFinset_card_of_nodup hnd
  rw [← hcard]
  congr 1
  ext x
  simp [List.mem_filter, mem_firstSeen]

/-- The float comparison `overlap >= len(correct) * 0.5` as a statement
about naturals. -/
theorem half_le_iff (n m : Nat) :
    ((n : ℚ) * (0.5 : ℚ) ≤ (m : ℚ)) ↔ n ≤ 2 * m := by
  have : ((n : ℚ) * (0.5 : ℚ) ≤ (m : ℚ)) ↔ (n : ℚ) ≤ 2 * (m : ℚ) := by
    constructor <;> intro h <;> nlinarith
  rw [this]
  exact_mod_cast Iff.rfl

/-- C2: the analyzer's correctness decision — exact case-insensitive
trimmed match for multiple-choice and true/false; for short answers,
at least 50% of the canonical answer's words (counted with
multiplicity) must appear among the distinct shared words of the two
lowercased word sets; a missing submitted answer is treated as the
empty string. -/
theorem claim_C2_answer_evaluation (q : Question) (ua : String) :
    ((q.question_type = "multiple_choice" ∨ q.question_type = "true_false") →
      (evaluate_answer_quality q ua = true ↔
        pyStrip (pyLower ua) = pyStrip (pyLower q.correct_answer))) ∧
    (q.question_type = "short_answer" →
      (evaluate_answer_quality q ua = true ↔
        ((pySplit (pyLower q.correct_answer)).length : ℚ) * (0.5 : ℚ) ≤
          (((pySplit (pyLower ua)).toFinset ∩
            (pySplit (pyLower q.correct_answer)).toFinset).card : ℚ))) ∧
    (∀ att : QuizAttempt, att.answers.lookup q.id = none →
      answerFor att q.id = "" ∧ (perfRecord att q).user_answer = "" ∧
      (perfRecord att q).is_correct = evaluate_answer_quality q "") := by
  refine ⟨?_, ?_, ?_⟩
  · rintro (h | h) <;> simp [evaluate_answer_quality, h]
  · intro h
    rw [evaluate_answer_quality]
    rw [if_neg (by rw [h]; decide), if_neg (by rw [h]; decide)]
    simp only [decide_eq_true_eq]
    rw [overlap_eq_inter_card, Finset.inter_comm]
    exact (half_le_iff _ _).symm
  · intro att hnone
    have hA : answerFor att q.id = "" := by simp [answerFor, hnone]
    exact ⟨hA, by simp [perfRecord, hA], by simp [perfRecord, hA]⟩

/-- Concrete inputs for witnesses. -/
def sampleMC : Question :=
  { id := "q1", question_text := "What is the capital city of France",
    question_type := "multiple_choice", correct_answer := "Paris",
    explanation := none, difficulty := 4 }

def sampleSA : Question :=
  { id := "q2", question_text := "Explain the cell membrane structure",
    question_type := "short_answer", correct_answer := "lipid bilayer membrane",
    explanation := none, difficulty := 2 }

def sampleAttempt : QuizAttempt :=
  { id := "a1", quiz_id := "z1", user_id := "u1",
    answers := [("q1", " PARIS "), ("q2", "a bilayer of lipid molecules")] }

/-- Witness for C2 at concrete inputs: the multiple-choice branch, the
short-answer branch and the missing-answer branch, each discharged at a
run of `claim_C2_answer_evaluation`. -/
theorem claim_C2_answer_evaluation_witness :
    evaluate_answer_quality sampleMC " PARIS " = true ∧
    evaluate_answer_quality sampleSA "a bilayer of lipid molecules" = true ∧
    answerFor { id := "a2", quiz_id := "z1", user_id := "u1", answers := [] } sampleMC.id = "" := by
  refine ⟨((claim_C2_answer_evaluation sampleMC " PARIS ").1 (Or.inl rfl)).mpr (by decide),
    ((claim_C2_answer_evaluation sampleSA "a bilayer of lipid molecules").2.1 rfl).mpr ?_,
    (((claim_C2_answer_evaluation sampleMC "").2.2
      { id := "a2", quiz_id := "z1", user_id := "u1", answers := [] } rfl).1)⟩
  have e1 : (pySplit (pyLower sampleSA.correct_answer)).length = 3 := by decide
  have e2 : ((pySplit (pyLower "a bilayer of lipid molecules")).toFinset ∩
      (pySplit (pyLower sampleSA.correct_answer)).toFinset).card = 2 := by decide
  rw [e1, e2]
  norm_num

/-- The fixed threshold table of `_determine_performance_level`. -/
theorem determine_performance_level_spec (p : ℚ) :
    (90 ≤ p → determine_performance_level p = "excellent") ∧
    (80 ≤ p ∧ p < 90 → determine_performance_level p = "good") ∧
    (70 ≤ p ∧ p < 80 → determine_performance_level p = "satisfactory") ∧
    (60 ≤ p ∧ p < 70 → determine_performance_level p = "needs_improvement") ∧
    (p < 60 → determine_performance_level p = "requires_significant_study") := by
  unfold determine_performance_level
  refine ⟨fun h => ?_, fun h => ?_, fun h => ?_, fun h => ?_, fun h => ?_⟩
  · rw [if_pos h]
  · obtain ⟨h1, h2⟩ := h
    rw [if_neg (by linarith), if_pos h1]
  · obtain ⟨h1, h2⟩ := h
    rw [if_neg (by linarith), if_neg (by linarith), if_pos h1]
  · obtain ⟨h1, h2⟩ := h
    rw [if_neg (by linarith), if_neg (by linarith), if_neg (by linarith), if_pos h1]
  · rw [if_neg (by linarith), if_neg (by linarith), if_neg (by linarith),
      if_neg (by linarith)]

/-- C3: the score percentage is the number of correctly answered
questions over the total question count times 100 (0 for an empty
quiz), and the performance level follows the fixed thresholds
≥90 excellent, ≥80 good, ≥70 satisfactory, ≥60 needs_improvement,
otherwise requires_significant_study. -/
theorem claim_C3_score_and_level (att : QuizAttempt) (qs : List Question) :
    (analyze_quiz_performance att qs).correct_answers =
      qs.countP (fun q => evaluate_answer_quality q (answerFor att q.id)) ∧
    (qs.length = 0 → (analyze_quiz_performance att qs).score_percentage = 0) ∧
    (0 < qs.length → (analyze_quiz_performance att qs).score_percentage =
      ((analyze_quiz_performance att qs).correct_answers : ℚ) / (qs.length : ℚ) * 100) ∧
    (90 ≤ (analyze_quiz_performance att qs).score_percentage →
      (analyze_quiz_performance att qs).performance_level = "excellent") ∧
    (80 ≤ (analyze_quiz_performance att qs).score_percentage ∧
        (analyze_quiz_performance att qs).score_percentage < 90 →
      (analyze_quiz_performance att qs).performance_level = "good") ∧
    (70 ≤ (analyze_quiz_performance att qs).score_percentage ∧
        (analyze_quiz_performance att qs).score_percentage < 80 →
      (analyze_quiz_performance att qs).performance_level = "satisfactory") ∧
    (60 ≤ (analyze_quiz_performance att qs).score_percentage ∧
        (analyze_quiz_performance att qs).score_percentage < 70 →
      (analyze_quiz_performance att qs).performance_level = "needs_improvement") ∧
    ((analyze_quiz_performance att qs).score_percentage < 60 →
      (analyze_quiz_performance att qs).performance_level = "requires_significant_study") := by
  have hlevel : (analyze_quiz_performance att qs).performance_level =
      determine_performance_level ((analyze_quiz_performance att qs).score_percentage) := rfl
  have hspec := determine_performance_level_spec
    ((analyze_quiz_performance att qs).score_percentage)
  refine ⟨?_, ?_, ?_, fun h => hlevel.trans (hspec.1 h),
    fun h => hlevel.trans (hspec.2.1 h), fun h => hlevel.trans (hspec.2.2.1 h),
    fun h => hlevel.trans (hspec.2.2.2.1 h), fun h => hlevel.trans (hspec.2.2.2.2 h)⟩
  · show ((qs.map (perfRecord att)).filter (fun r => r.is_correct)).length = _
    rw [← List.countP_eq_length_filter, List.countP_map]
    rfl
  · intro h
    show (if 0 < qs.length then _ else (0 : ℚ)) = 0
    rw [if_neg (by omega)]
  · intro h
    show (if 0 < qs.length then
        (((qs.map (perfRecord att)).filter (fun r => r.is_correct)).length : ℚ) /
          (qs.length : ℚ) * 100 else 0) = _
    rw [if_pos h]
    rfl

/-- Witness for C3: a two-question quiz answered fully correctly
(score 100, level excellent) and the empty quiz (score 0). -/
theorem claim_C3_score_and_level_witness :
    (analyze_quiz_performance sampleAttempt []).score_percentage = 0 ∧
    (analyze_quiz_performance sampleAttempt [sampleMC, sampleSA]).performance_level =
      "excellent" := by
  refine ⟨(claim_C3_score_and_level sampleAttempt []).2.1 rfl, ?_⟩
  have h1 : (analyze_quiz_performance sampleAttempt [sampleMC, sampleSA]).correct_answers = 2 :=
    by decide
  have h2 := (claim_C3_score_and_level sampleAttempt [sampleMC, sampleSA]).2.2.1 (by decide)
  refine (claim_C3_score_and_level sampleAttempt [sampleMC, sampleSA]).2.2.2.1 ?_
  rw [h2, h1]
  norm_num

/-- C10: a short-answer question whose canonical answer tokenizes to
zero words is classified correct for every submitted answer — the
required overlap of 50% of zero words is always met — and therefore
always lands in the strong partition. -/
theorem claim_C10_empty_canonical_always_correct (q : Question)
    (hty : q.question_type = "short_answer")
    (hz : pySplit (pyLower q.correct_answer) = []) :
    (∀ ua : String, evaluate_answer_quality q ua = true) ∧
    (∀ (att : QuizAttempt) (qs : List Question), q ∈ qs →
      perfRecord att q ∈ (analyze_quiz_performance att qs).strong_areas) := by
  have heval : ∀ ua : String, evaluate_answer_quality q ua = true := by
    intro ua
    rw [evaluate_answer_quality, if_neg (by rw [hty]; decide),
      if_neg (by rw [hty]; decide)]
    simp [hz]
  refine ⟨heval, ?_⟩
  intro att qs hq
  show perfRecord att q ∈ (qs.map (perfRecord att)).filter (fun r => r.is_correct)
  rw [List.mem_filter]
  exact ⟨List.mem_map_of_mem _ hq, heval _⟩

/-- A short-answer question with an empty canonical answer. -/
def sampleEmptySA : Question :=
  { id := "q3", question_text := "Describe the process in your own words",
    question_type := "short_answer", correct_answer := "",
    explanation := none, difficulty := 5 }

/-- Witness for C10: the empty-canonical-answer question is marked
correct for an arbitrary answer and lands in the strong partition. -/
theorem claim_C10_empty_canonical_always_correct_witness :
    evaluate_answer_quality sampleEmptySA "anything at all" = true ∧
    perfRecord sampleAttempt sampleEmptySA ∈
      (analyze_quiz_performance sampleAttempt [sampleEmptySA]).strong_areas :=
  ⟨(claim_C10_empty_canonical_always_correct sampleEmptySA rfl (by decide)).1
      "anything at all",
   (claim_C10_empty_canonical_always_correct sampleEmptySA rfl (by decide)).2
      sampleAttempt [sampleEmptySA] (by simp)⟩

/-- Concrete inputs for the synthesizer claims. -/
def samplePerf : PerformanceAnalysis :=
  { total_questions := 2, correct_answers := 1, score_percentage := 50,
    weak_areas := [], needs_review := [], strong_areas := [],
    weak_topics := ["alpha"], performance_level := "needs_improvement" }

def samplePdf : PDFDocument := { id := "pdf1", original_filename := "doc.pdf" }

def generalItem : ContentItem :=
  { topic := "general_content", query := "general_search", content := "chunk",
    relevance_score := 0.8, chunk_index := 0, source := "pdf_content" }

/-- Counterexample to C8 as stated: at a concrete analysis, content list
and document, the fallback artifact omits the performance level, the
correct-answer count and the next-review date that the AI-path artifact
carries, so the two paths are distinguishable from the data shape. -/
theorem claim_C8_counterexample :
    (create_fallback_notes samplePerf [generalItem] samplePdf 0).ps_level = none ∧
    (notes_data_success samplePerf [generalItem] samplePdf 0).ps_level =
      some "needs_improvement" ∧
    (create_fallback_notes samplePerf [generalItem] samplePdf 0).ps_correct_answers = none ∧
    (notes_data_success samplePerf [generalItem] samplePdf 0).ps_correct_answers = some 1 ∧
    (create_fallback_notes samplePerf [generalItem] samplePdf 0).next_review_days = none ∧
    (notes_data_success samplePerf [generalItem] samplePdf 0).next_review_days = some 2 ∧
    create_fallback_notes samplePerf [generalItem] samplePdf 0 ≠
      notes_data_success samplePerf [generalItem] samplePdf 0 := by
  refine ⟨rfl, rfl, rfl, rfl, rfl, rfl, fun h => ?_⟩
  have hl := congrArg NotesData.ps_level h
  simp [create_fallback_notes, notes_data_success] at hl

/-- C8 as amended: the AI path and the fallback path agree on every
field both emit — id, document id and title, timestamp, score, weak
topics, total-question count, content-source count, topics covered,
study priority and estimated study time — but the fallback omits the
performance level and correct-answer count from the performance summary
and omits the next-review date. -/
theorem claim_C8_amended (analysis : PerformanceAnalysis)
    (content : List ContentItem) (pdf : PDFDocument) (now : Nat) :
    (notes_data_success analysis content pdf now).id =
      (create_fallback_notes analysis content pdf now).id ∧
    (notes_data_success analysis content pdf now).pdf_id =
      (create_fallback_notes analysis content pdf now).pdf_id ∧
    (notes_data_success analysis content pdf now).pdf_title =
      (create_fallback_notes analysis content pdf now).pdf_title ∧
    (notes_data_success analysis content pdf now).generated_at =
      (create_fallback_notes analysis content pdf now).generated_at ∧
    (notes_data_success analysis content pdf now).ps_score =
      (create_fallback_notes analysis content pdf now).ps_score ∧
    (notes_data_success analysis content pdf now).ps_weak_topics =
      (create_fallback_notes analysis content pdf now).ps_weak_topics ∧
    (notes_data_success analysis content pdf now).ps_total_questions =
      (create_fallback_notes analysis content pdf now).ps_total_questions ∧
    (notes_data_success analysis content pdf now).relevant_content_sources =
      (create_fallback_notes analysis content pdf now).relevant_content_sources ∧
    (notes_data_success analysis content pdf now).topics_covered =
      (create_fallback_notes analysis content pdf now).topics_covered ∧
    (notes_data_success analysis content pdf now).study_priority =
      (create_fallback_notes analysis content pdf now).study_priority ∧
    (notes_data_success analysis content pdf now).estimated_study_time =
      (create_fallback_notes analysis content pdf now).estimated_study_time ∧
    (notes_data_success analysis content pdf now).ps_level =
      some analysis.performance_level ∧
    (create_fallback_notes analysis content pdf now).ps_level = none ∧
    (notes_data_success analysis content pdf now).ps_correct_answers =
      some analysis.correct_answers ∧
    (create_fallback_notes analysis content pdf now).ps_correct_answers = none ∧
    (notes_data_success analysis content pdf now).next_review_days =
      some (suggest_review_days analysis.performance_level) ∧
    (create_fallback_notes analysis content pdf now).next_review_days = none :=
  ⟨rfl, rfl, rfl, rfl, rfl, rfl, rfl, rfl, rfl, rfl, rfl, rfl, rfl, rfl, rfl, rfl, rfl⟩

/-- Counterexample to C9 as stated: when the grouped content contains
the sentinel topic, `topics_covered` includes `"general_content"` — the
source performs no exclusion. -/
theorem claim_C9_counterexample :
    ¬ (∀ kw, kw ∈ (generate_personalized_notes true samplePerf [generalItem]
          samplePdf 0).topics_covered ↔
        (kw ∈ [generalItem].map ContentItem.topic ∧ kw ≠ "general_content")) := by
  intro h
  have h1 : "general_content" ∈ (generate_personalized_notes true samplePerf
      [generalItem] samplePdf 0).topics_covered := by decide
  exact ((h "general_content").mp h1).2 rfl

/-- C9 as amended: on both synthesizer paths, `topics_covered` consists
of exactly the topic keys present in the grouped content — the sentinel
`"general_content"` is not excluded. -/
theorem claim_C9_amended (gemini_ok : Bool) (analysis : PerformanceAnalysis)
    (content : List ContentItem) (pdf : PDFDocument) (now : Nat) (kw : String) :
    kw ∈ (generate_personalized_notes gemini_ok analysis content pdf now).topics_covered ↔
      kw ∈ content.map ContentItem.topic := by
  cases gemini_ok <;>
    simp [generate_personalized_notes, notes_data_success, create_fallback_notes,
      content_by_topic_keys, mem_firstSeen]

/-- The indexed bigram loop of `_extract_topic_keywords` equals the
zip-with-tail formulation: one underscore-joined pair per adjacent
token pair whose two tokens both survive the filter. -/
theorem word_pairs_eq : ∀ l : List String,
    word_pairs l = ((l.zip l.tail).filter (fun p => keeps p.1 && keeps p.2)).map
      (fun p => p.1 ++ "_" ++ p.2)
  | [] => rfl
  | [_] => rfl
  | a :: b :: rest => by
    have ih := word_pairs_eq (b :: rest)
    rw [word_pairs]
    rw [List.tail_cons, List.zip_cons_cons, List.filter_cons]
    by_cases h : (keeps a && keeps b) = true
    · rw [if_pos h, ih, List.tail_cons]
      simp [h]
    · rw [if_neg h, ih, List.tail_cons]
      simp [h]

/-- C4: the Topic Extractor is the total function that lowercases and
word-boundary-tokenizes the question text, discards the fixed stop-word
set and every token of length ≤ 3, forms underscore-joined bigrams of
adjacent surviving tokens, and returns bigrams first, then unigrams,
truncated to 8 entries — hence always at most 8 keywords. -/
theorem claim_C4_topic_extraction (question_text : String) :
    extract_topic_keywords question_text = extract_topics_spec question_text ∧
    (extract_topic_keywords question_text).length ≤ 8 := by
  constructor
  · rw [extract_topic_keywords, extract_topics_spec, word_pairs_eq]
  · rw [extract_topic_keywords]
    exact List.length_take_le 8 _

/-- What `identify_weak_topics` guarantees: at most 10 entries, every
entry occurs as a topic keyword of some input record, and the entries
are ordered by descending occurrence count with ties ordered by first
appearance (position in `firstSeen` of the concatenated keyword
stream). -/
theorem identify_weak_topics_spec (records : List PerfRecord) :
    (identify_weak_topics records).length ≤ 10 ∧
    (∀ kw ∈ identify_weak_topics records, ∃ r ∈ records, kw ∈ r.topic_keywords) ∧
    (identify_weak_topics records).Pairwise (fun a b =>
      (records.flatMap (fun r => r.topic_keywords)).count b <
        (records.flatMap (fun r => r.topic_keywords)).count a ∨
      ((records.flatMap (fun r => r.topic_keywords)).count a =
          (records.flatMap (fun r => r.topic_keywords)).count b ∧
        (firstSeen (records.flatMap (fun r => r.topic_keywords))).indexOf a ≤
          (firstSeen (records.flatMap (fun r => r.topic_keywords))).indexOf b)) := by
  have hfact : ∀ t ∈ ((firstSeen (records.flatMap (fun r => r.topic_keywords))).map
      (fun kw => ((firstSeen (records.flatMap (fun r => r.topic_keywords))).indexOf kw,
        kw, (records.flatMap (fun r => r.topic_keywords)).count kw))).insertionSort wtRel,
      t.1 = (firstSeen (records.flatMap (fun r => r.topic_keywords))).indexOf t.2.1 ∧
      t.2.2 = (records.flatMap (fun r => r.topic_keywords)).count t.2.1 ∧
      t.2.1 ∈ firstSeen (records.flatMap (fun r => r.topic_keywords)) := by
    intro t ht
    rw [List.mem_insertionSort, List.mem_map] at ht
    obtain ⟨kw, hkw, rfl⟩ := ht
    exact ⟨rfl, rfl, hkw⟩
  refine ⟨List.length_take_le 10 _, ?_, ?_⟩
  · intro kw hkw
    rw [identify_weak_topics] at hkw
    have hkw' := (List.take_sublist _ _).mem hkw
    rw [List.mem_map] at hkw'
    obtain ⟨t, ht, rfl⟩ := hkw'
    have hmem := (hfact t ht).2.2
    rw [mem_firstSeen, List.mem_flatMap] at hmem
    exact hmem
  · rw [identify_weak_topics]
    refine List.Pairwise.sublist (List.take_sublist _ _) ?_
    rw [List.pairwise_map]
    refine List.Pairwise.imp_of_mem ?_
      (List.sorted_insertionSort wtRel _ : List.Sorted wtRel _)
    intro t u ht hu hrel
    obtain ⟨hti, htc, -⟩ := hfact t ht
    obtain ⟨hui, huc, -⟩ := hfact u hu
    rcases hrel with h | ⟨h1, h2⟩
    · exact Or.inl (by rw [← htc, ← huc]; exact h)
    · exact Or.inr ⟨by rw [← htc, ← huc]; exact h1, by rw [← hti, ← hui]; exact h2⟩

/-- C5: for every analysis, the weak-topic list has at most 10 entries,
each entry is a keyword of a weak or needs-review record, and the list
is ordered by descending keyword frequency over the weak and
needs-review records, with equal frequencies ordered by first
appearance. -/
theorem claim_C5_weak_topics (att : QuizAttempt) (qs : List Question) :
    (analyze_quiz_performance att qs).weak_topics.length ≤ 10 ∧
    (∀ kw ∈ (analyze_quiz_performance att qs).weak_topics,
      ∃ r ∈ (analyze_quiz_performance att qs).weak_areas ++
        (analyze_quiz_performance att qs).needs_review, kw ∈ r.topic_keywords) ∧
    (analyze_quiz_performance att qs).weak_topics.Pairwise (fun a b =>
      (((analyze_quiz_performance att qs).weak_areas ++
          (analyze_quiz_performance att qs).needs_review).flatMap
        (fun r => r.topic_keywords)).count b <
        (((analyze_quiz_performance att qs).weak_areas ++
          (analyze_quiz_performance att qs).needs_review).flatMap
          (fun r => r.topic_keywords)).count a ∨
      ((((analyze_quiz_performance att qs).weak_areas ++
          (analyze_quiz_performance att qs).needs_review).flatMap
          (fun r => r.topic_keywords)).count a =
        (((analyze_quiz_performance att qs).weak_areas ++
          (analyze_quiz_performance att qs).needs_review).flatMap
          (fun r => r.topic_keywords)).count b ∧
        (firstSeen (((analyze_quiz_performance att qs).weak_areas ++
          (analyze_quiz_performance att qs).needs_review).flatMap
            (fun r => r.topic_keywords))).indexOf a ≤
          (firstSeen (((analyze_quiz_performance att qs).weak_areas ++
            (analyze_quiz_performance att qs).needs_review).flatMap
              (fun r => r.topic_keywords))).indexOf b)) :=
  identify_weak_topics_spec
    ((analyze_quiz_performance att qs).weak_areas ++
      (analyze_quiz_performance att qs).needs_review)

/-! ### Dedup invariants for the Content Aggregator -/

/-- In an association list with pairwise-distinct keys, entries with
equal keys are equal. -/
theorem nodup_keys_eq : ∀ {l : List (String × ContentItem)},
    (l.map Prod.fst).Nodup → ∀ {p q : String × ContentItem},
    p ∈ l → q ∈ l → p.1 = q.1 → p = q
  | [], _, _, _, hp, _, _ => absurd hp (List.not_mem_nil _)
  | a :: l, hnd, p, q, hp, hq, hk => by
    rw [List.map_cons, List.nodup_cons] at hnd
    rcases List.mem_cons.mp hp with rfl | hp' <;> rcases List.mem_cons.mp hq with rfl | hq'
    · rfl
    · exact absurd (hk ▸ List.mem_map_of_mem Prod.fst hq') hnd.1
    · exact absurd (hk ▸ List.mem_map_of_mem Prod.fst hp') hnd.1
    · exact nodup_keys_eq hnd.2 hp' hq' hk

/-- Every entry of a dict update is either an old entry or the fresh
`(itemKey item, item)` pair. -/
theorem updateUnique_mem : ∀ {acc : List (String × ContentItem)} {item : ContentItem}
    {p : String × ContentItem}, p ∈ updateUnique acc item →
    p ∈ acc ∨ p = (itemKey item, item)
  | [], item, p, hp => by
    rw [updateUnique, List.mem_singleton] at hp
    exact Or.inr hp
  | q :: rest, item, p, hp => by
    rw [updateUnique] at hp
    by_cases h1 : itemKey item = q.1
    · rw [if_pos h1] at hp
      by_cases h2 : q.2.relevance_score < item.relevance_score
      · rw [if_pos h2] at hp
        rcases List.mem_cons.mp hp with rfl | hp'
        · exact Or.inr (by rw [h1])
        · exact Or.inl (List.mem_cons_of_mem _ hp')
      · rw [if_neg h2] at hp
        exact Or.inl hp
    · rw [if_neg h1] at hp
      rcases List.mem_cons.mp hp with rfl | hp'
      · exact Or.inl (List.mem_cons_self _ _)
      · rcases updateUnique_mem hp' with h | h
        · exact Or.inl (List.mem_cons_of_mem _ h)
        · exact Or.inr h

/-- The key list of a dict update: unchanged when the key already
exists, otherwise the new key is appended. -/
theorem updateUnique_fst : ∀ (acc : List (String × ContentItem)) (item : ContentItem),
    (updateUnique acc item).map Prod.fst =
      if itemKey item ∈ acc.map Prod.fst then acc.map Prod.fst
      else acc.map Prod.fst ++ [itemKey item]
  | [], item => by simp [updateUnique]
  | q :: rest, item => by
    rw [updateUnique]
    by_cases h1 : itemKey item = q.1
    · rw [if_pos h1]
      have hmem : itemKey item ∈ (q :: rest).map Prod.fst := by
        rw [List.map_cons]; exact h1 ▸ List.mem_cons_self _ _
      rw [if_pos hmem]
      by_cases h2 : q.2.relevance_score < item.relevance_score
      · rw [if_pos h2]; simp
      · rw [if_neg h2]
    · rw [if_neg h1, List.map_cons, updateUnique_fst rest item, List.map_cons]
      by_cases h3 : itemKey item ∈ rest.map Prod.fst
      · rw [if_pos h3, if_pos (List.mem_cons_of_mem _ h3)]
      · rw [if_neg h3, if_neg (by
          rw [List.mem_cons]
          rintro (h | h)
          · exact h1 h
          · exact h3 h)]
        simp

/-- A dict update never decreases the stored score at any existing
key. -/
theorem updateUnique_grow : ∀ {acc : List (String × ContentItem)} {item : ContentItem},
    (acc.map Prod.fst).Nodup → ∀ {q : String × ContentItem}, q ∈ acc →
    ∀ {p : String × ContentItem}, p ∈ updateUnique acc item → p.1 = q.1 →
    q.2.relevance_score ≤ p.2.relevance_score
  | [], _, _, _, hq, _, _, _ => absurd hq (List.not_mem_nil _)
  | q0 :: rest, item, hnd, q, hq, p, hp, hk => by
    rw [List.map_cons, List.nodup_cons] at hnd
    rw [updateUnique] at hp
    by_cases h1 : itemKey item = q0.1
    · rw [if_pos h1] at hp
      by_cases h2 : q0.2.relevance_score < item.relevance_score
      · rw [if_pos h2] at hp
        rcases List.mem_cons.mp hp with rfl | hp'
        · rcases List.mem_cons.mp hq with rfl | hq'
          · exact le_of_lt h2
          · exact absurd (hk ▸ List.mem_map_of_mem Prod.fst hq') hnd.1
        · rcases List.mem_cons.mp hq with rfl | hq'
          · exact absurd (hk ▸ List.mem_map_of_mem Prod.fst hp') hnd.1
          · exact le_of_eq (congrArg (fun r => r.2.relevance_score)
              (nodup_keys_eq hnd.2 hq' hp' hk.symm))
      · rw [if_neg h2] at hp
        have hnd' : ((q0 :: rest).map Prod.fst).Nodup := by
          rw [List.map_cons]
          exact List.nodup_cons.mpr hnd
        exact le_of_eq (congrArg (fun r => r.2.relevance_score)
          (nodup_keys_eq hnd' hq hp hk.symm))
    · rw [if_neg h1] at hp
      rcases List.mem_cons.mp hp with rfl | hp'
      · rcases List.mem_cons.mp hq with rfl | hq'
        · rfl
        · exact absurd (hk ▸ List.mem_map_of_mem Prod.fst hq') hnd.1
      · rcases List.mem_cons.mp hq with rfl | hq'
        · rcases updateUnique_mem hp' with h | h
          · exact absurd (hk ▸ List.mem_map_of_mem Prod.fst h) hnd.1
          · rw [h] at hk
            exact absurd hk h1
        · exact updateUnique_grow hnd.2 hq' hp' hk

/-- After a dict update, the entry at the new item's key has a score at
least the item's. -/
theorem updateUnique_item_le : ∀ {acc : List (String × ContentItem)} {item : ContentItem},
    (acc.map Prod.fst).Nodup → ∀ {p : String × ContentItem},
    p ∈ updateUnique acc item → p.1 = itemKey item →
    item.relevance_score ≤ p.2.relevance_score
  | [], item, _, p, hp, _ => by
    rw [updateUnique, List.mem_singleton] at hp
    exact le_of_eq (congrArg (fun r => r.2.relevance_score) hp).symm
  | q0 :: rest, item, hnd, p, hp, hk => by
    rw [List.map_cons, List.nodup_cons] at hnd
    rw [updateUnique] at hp
    by_cases h1 : itemKey item = q0.1
    · rw [if_pos h1] at hp
      by_cases h2 : q0.2.relevance_score < item.relevance_score
      · rw [if_pos h2] at hp
        rcases List.mem_cons.mp hp with rfl | hp'
        · exact le_refl _
        · exact absurd ((hk.trans h1) ▸ List.mem_map_of_mem Prod.fst hp') hnd.1
      · rw [if_neg h2] at hp
        rcases List.mem_cons.mp hp with rfl | hp'
        · exact le_of_not_lt h2
        · exact absurd ((hk.trans h1) ▸ List.mem_map_of_mem Prod.fst hp') hnd.1
    · rw [if_neg h1] at hp
      rcases List.mem_cons.mp hp with rfl | hp'
      · exact absurd hk.symm h1
      · exact updateUnique_item_le hnd.2 hp' hk

/-- Invariant of the dedup fold: every stored entry is keyed by its own
item key, holds an already-processed item, and its score dominates
every processed item with the same key; every processed item's key is
present; keys are pairwise distinct. -/
def UniqueInv (processed : List ContentItem) (acc : List (String × ContentItem)) : Prop :=
  (∀ p ∈ acc, itemKey p.2 = p.1 ∧ p.2 ∈ processed ∧
    ∀ i ∈ processed, itemKey i = p.1 → i.relevance_score ≤ p.2.relevance_score) ∧
  (∀ i ∈ processed, itemKey i ∈ acc.map Prod.fst) ∧
  (acc.map Prod.fst).Nodup

theorem uniqueInv_step {processed : List ContentItem}
    {acc : List (String × ContentItem)} {item : ContentItem}
    (h : UniqueInv processed acc) :
    UniqueInv (processed ++ [item]) (updateUnique acc item) := by
  obtain ⟨hmax, hcov, hnd⟩ := h
  refine ⟨?_, ?_, ?_⟩
  · intro p hp
    rcases updateUnique_mem hp with hpacc | rfl
    · obtain ⟨hk, hmem, hm⟩ := hmax p hpacc
      refine ⟨hk, List.mem_append_left _ hmem, ?_⟩
      intro i hi hik
      rcases List.mem_append.mp hi with hi' | hi'
      · exact hm i hi' hik
      · rw [List.mem_singleton] at hi'
        subst hi'
        exact updateUnique_item_le hnd hp hik.symm
    · refine ⟨rfl, List.mem_append_right _ (List.mem_singleton_self _), ?_⟩
      intro i hi hik
      rcases List.mem_append.mp hi with hi' | hi'
      · have hkin := hcov i hi'
        rw [List.mem_map] at hkin
        obtain ⟨q, hq, hq1⟩ := hkin
        have h1 : i.relevance_score ≤ q.2.relevance_score :=
          (hmax q hq).2.2 i hi' hq1.symm
        have h2 : q.2.relevance_score ≤ item.relevance_score :=
          updateUnique_grow hnd hq hp ((hq1.trans hik).symm)
        exact le_trans h1 h2
      · rw [List.mem_singleton] at hi'
        subst hi'
        exact le_refl _
  · intro i hi
    rw [updateUnique_fst]
    rcases List.mem_append.mp hi with hi' | hi'
    · by_cases hmem : itemKey item ∈ acc.map Prod.fst
      · rw [if_pos hmem]
        exact hcov i hi'
      · rw [if_neg hmem]
        exact List.mem_append_left _ (hcov i hi')
    · rw [List.mem_singleton] at hi'
      rw [hi']
      by_cases hmem : itemKey item ∈ acc.map Prod.fst
      · rw [if_pos hmem]
        exact hmem
      · rw [if_neg hmem]
        exact List.mem_append_right _ (List.mem_singleton_self _)
  · rw [updateUnique_fst]
    by_cases hmem : itemKey item ∈ acc.map Prod.fst
    · rw [if_pos hmem]
      exact hnd
    · rw [if_neg hmem]
      simp [List.nodup_append, hnd, hmem]

theorem unique_content_inv (items : List ContentItem) :
    UniqueInv items (unique_content items) := by
  have main : ∀ (todo processed : List ContentItem) (acc : List (String × ContentItem)),
      UniqueInv processed acc →
      UniqueInv (processed ++ todo) (todo.foldl updateUnique acc) := by
    intro todo
    induction todo with
    | nil => intro processed acc h; simpa using h
    | cons t ts ih =>
      intro processed acc h
      have h2 := ih (processed ++ [t]) (updateUnique acc t) (uniqueInv_step h)
      simpa [List.append_assoc] using h2
  have h0 : UniqueInv [] [] := ⟨by simp, by simp, by simp⟩
  simpa using main items [] [] h0

/-- Items with the same (topic, chunk index) pair have the same dedup
key. -/
theorem itemKey_eq_of_pair {a b : ContentItem}
    (h1 : a.topic = b.topic) (h2 : a.chunk_index = b.chunk_index) :
    itemKey a = itemKey b := by
  rw [itemKey, itemKey, h1, h2]

/-- C6: the Content Aggregator returns at most `max_chunks` items, no
two returned items share a (topic, chunk index) pair, the result is
sorted by relevance score descending, and every returned item is a
retrieved item whose score dominates every retrieved item with its
(topic, chunk index) pair — the higher-scoring duplicate is the one
kept. -/
theorem claim_C6_dedup_sort_truncate (retr : Retriever) (weak_topics : List String)
    (pdf_id : String) (max_chunks : Nat) :
    (find_relevant_content retr weak_topics pdf_id max_chunks).length ≤ max_chunks ∧
    (find_relevant_content retr weak_topics pdf_id max_chunks).Pairwise
      (fun a b => ¬(a.topic = b.topic ∧ a.chunk_index = b.chunk_index)) ∧
    (find_relevant_content retr weak_topics pdf_id max_chunks).Sorted scoreRel ∧
    (∀ o ∈ find_relevant_content retr weak_topics pdf_id max_chunks,
      o ∈ retrieved_items retr weak_topics pdf_id ∧
      ∀ i ∈ retrieved_items retr weak_topics pdf_id,
        i.topic = o.topic → i.chunk_index = o.chunk_index →
          i.relevance_score ≤ o.relevance_score) := by
  obtain ⟨hmax, -, hnd⟩ := unique_content_inv (retrieved_items retr weak_topics pdf_id)
  have hkeys : ((unique_content (retrieved_items retr weak_topics pdf_id)).map
      Prod.snd).Pairwise (fun a b => itemKey a ≠ itemKey b) := by
    rw [List.pairwise_map]
    rw [List.Nodup, List.pairwise_map] at hnd
    refine List.Pairwise.imp_of_mem ?_ hnd
    intro p q hp hq hne
    rw [(hmax p hp).1, (hmax q hq).1]
    exact hne
  have hvals : ((unique_content (retrieved_items retr weak_topics pdf_id)).map
      Prod.snd).Pairwise
      (fun a b => ¬(a.topic = b.topic ∧ a.chunk_index = b.chunk_index)) :=
    hkeys.imp (fun hne hpair => hne (itemKey_eq_of_pair hpair.1 hpair.2))
  rw [find_relevant_content]
  refine ⟨List.length_take_le _ _, ?_, ?_, ?_⟩
  · refine List.Pairwise.sublist (List.take_sublist _ _) ?_
    have hsym : ∀ {x y : ContentItem},
        (¬(x.topic = y.topic ∧ x.chunk_index = y.chunk_index)) →
        ¬(y.topic = x.topic ∧ y.chunk_index = x.chunk_index) :=
      fun h hp => h ⟨hp.1.symm, hp.2.symm⟩
    exact (List.Perm.pairwise_iff hsym (List.perm_insertionSort scoreRel _)).mpr hvals
  · exact List.Pairwise.sublist (List.take_sublist _ _)
      (List.sorted_insertionSort scoreRel _)
  · intro o ho
    have ho1 : o ∈ ((unique_content (retrieved_items retr weak_topics pdf_id)).map
        Prod.snd).insertionSort scoreRel := (List.take_sublist _ _).subset ho
    rw [List.mem_insertionSort, List.mem_map] at ho1
    obtain ⟨p, hp, rfl⟩ := ho1
    obtain ⟨hk, hmem, hm⟩ := hmax p hp
    exact ⟨hmem, fun i hi ht hc => hm i hi ((itemKey_eq_of_pair ht hc).trans hk)⟩

/-- Every aggregator output item is one of the retrieved items. -/
theorem find_relevant_content_subset (retr : Retriever) (weak_topics : List String)
    (pdf_id : String) (max_chunks : Nat) :
    ∀ o ∈ find_relevant_content retr weak_topics pdf_id max_chunks,
      o ∈ retrieved_items retr weak_topics pdf_id := by
  intro o ho
  rw [find_relevant_content] at ho
  have ho1 := (List.take_sublist _ _).subset ho
  rw [List.mem_insertionSort, List.mem_map] at ho1
  obtain ⟨p, hp, rfl⟩ := ho1
  exact ((unique_content_inv _).1 p hp).2.1

/-- C7: when the per-topic fan-out yields zero items, the aggregator's
call trace is the fan-out calls followed by exactly one generic
fallback call with top-10 on the same document; every returned item is
then tagged with the sentinel topic `"general_content"`; and if that
fallback call raises or returns nothing, the aggregator returns the
empty sequence (it is a total function — it never raises). -/
theorem claim_C7_fallback_retrieval (retr : Retriever) (weak_topics : List String)
    (pdf_id : String) (max_chunks : Nat)
    (hempty : fanout_items retr weak_topics pdf_id = []) :
    retrieval_calls retr weak_topics pdf_id =
      (weak_topics.flatMap fun topic =>
        (search_queries topic).map fun q => (q, pdf_id, 5)) ++
        [(general_query, pdf_id, 10)] ∧
    (∀ item ∈ find_relevant_content retr weak_topics pdf_id max_chunks,
      item.topic = "general_content") ∧
    ((retr general_query pdf_id 10 = none ∨ retr general_query pdf_id 10 = some []) →
      find_relevant_content retr weak_topics pdf_id max_chunks = []) := by
  refine ⟨by simp [retrieval_calls, hempty], ?_, ?_⟩
  · intro item hitem
    have hmem := find_relevant_content_subset retr weak_topics pdf_id max_chunks item hitem
    rw [retrieved_items, hempty] at hmem
    simp only [List.isEmpty_nil, if_true] at hmem
    rw [fallback_items] at hmem
    cases hcall : retr general_query pdf_id 10 with
    | none => rw [hcall] at hmem; cases hmem
    | some results =>
      rw [hcall, List.mem_map] at hmem
      obtain ⟨r, -, rfl⟩ := hmem
      rfl
  · intro hfail
    have hfb : fallback_items retr pdf_id = [] := by
      rw [fallback_items]
      rcases hfail with h | h
      · rw [h]
      · rw [h]
        rfl
    rw [find_relevant_content, retrieved_items, hempty]
    simp [hfb, unique_content]

/-- Witness for C7: a retriever that always raises — the fan-out yields
nothing, the single generic fallback call is issued, and the aggregator
returns the empty sequence. -/
theorem claim_C7_fallback_retrieval_witness :
    retrieval_calls (fun _ _ _ => none) ["alpha"] "p" =
      ((["alpha"].flatMap fun topic =>
        (search_queries topic).map fun q => (q, "p", 5)) ++
        [(general_query, "p", 10)]) ∧
    find_relevant_content (fun _ _ _ => none) ["alpha"] "p" 15 = [] :=
  ⟨(claim_C7_fallback_retrieval (fun _ _ _ => none) ["alpha"] "p" 15 rfl).1,
   (claim_C7_fallback_retrieval (fun _ _ _ => none) ["alpha"] "p" 15 rfl).2.2
     (Or.inl rfl)⟩

end NotesGen
